import Mathlib

/-!
Verification of the restock-backend stock-status inference engine.

This file shallowly embeds the markup heuristic classifier
(`src/stock-checker.ts`: `parseStockStatus`, `parseVariantStock`,
`checkStructuredData`), the AI vision response parsers
(`src/ai-vision-service.ts`: `parseStockResponse`, `parseVariantResponse`)
and the response cache (`getFromCache`, `setCache`) of the repository, and
proves or refutes the frozen claims about them.

Modelling conventions:
* JavaScript strings are modelled as lists of Unicode scalar characters
  (`List Char`).  The concrete inputs of all claims are ASCII, where this
  agrees with JS UTF-16 code-unit indexing.
* `String.prototype.toLowerCase` is modelled on the ASCII range (all
  characters the source's patterns and the claims' inputs use); other
  characters are left unchanged.
* `new RegExp(pattern, 'i')` is modelled by an executable pattern parser
  (`jsRegexParse`, returning `none` where JS throws a `SyntaxError`) and a
  backtracking matcher (`reTest`) covering exactly the construct repertoire
  of the patterns the source builds.
* `JSON.parse` is modelled by an executable parser `jsonParse` (returning
  `none` where JS throws); numbers are kept as their validated source text
  because no code path of the repository consults a numeric value.
* Engine-specific exception message texts (`SyntaxError`/`TypeError`
  messages produced by the JS runtime rather than by the source's own
  `throw new Error(...)` statements) are abstracted as fixed strings; no
  claim depends on their exact wording.
-/

namespace Restock

set_option maxRecDepth 4000000
set_option maxHeartbeats 4000000

/-- `StockStatus` from `src/types.ts`: exactly the three statuses. -/
inductive StockStatus where
  | in_stock
  | few_left
  | unavailable
deriving DecidableEq, Repr

/-- ASCII lower-casing of one character, modelling `toLowerCase` on the
character range the source's patterns distinguish. -/
def lowerChar (c : Char) : Char :=
  if 'A' ≤ c ∧ c ≤ 'Z' then Char.ofNat (c.toNat + 32) else c

/-- `s.toLowerCase()` on the character-list model. -/
def lowerStr (l : List Char) : List Char := l.map lowerChar

/-- Character comparison, case-insensitively when `ci` is set (the `i`
regex flag / case-insensitive substring search). -/
def eqc (ci : Bool) (a b : Char) : Bool :=
  if ci then lowerChar a == lowerChar b else a == b

/-- JS regex word character (`\w` in non-unicode mode): `[A-Za-z0-9_]`. -/
def isWordChar (c : Char) : Bool :=
  ('a' ≤ c && c ≤ 'z') || ('A' ≤ c && c ≤ 'Z') || ('0' ≤ c && c ≤ '9') || c == '_'

/-- JS regex `\d`: `[0-9]`. -/
def isDigitChar (c : Char) : Bool := '0' ≤ c && c ≤ '9'

/-- JS whitespace (`\s`, `trim`): the ASCII whitespace characters plus
no-break space (the further Unicode space characters never occur in the
claims' inputs). -/
def isSpaceChar (c : Char) : Bool :=
  c == ' ' || c == '\t' || c == '\n' || c == '\r' || c == '\x0b' || c == '\x0c' ||
    c == '\u00a0'

/-- Does `pat` occur at the very start of `s` (case-insensitively when
`ci`)?  An empty pattern matches. -/
def headMatches (ci : Bool) : List Char → List Char → Bool
  | [], _ => true
  | _ :: _, [] => false
  | p :: ps, c :: cs => eqc ci p c && headMatches ci ps cs

/-- The scan of `indexOf`: the index (counting from `k`) of the first
position where `pat` matches, `-1` when there is none. -/
def jsIndexOfAux (ci : Bool) (pat : List Char) : Nat → List Char → Int
  | k, s =>
    if headMatches ci pat s then (k : Int)
    else
      match s with
      | [] => -1
      | _ :: rest => jsIndexOfAux ci pat (k + 1) rest

/-- `s.indexOf(pat)` (case-sensitively) / first case-insensitive occurrence:
the index of the first occurrence of `pat` in `s`, `-1` when there is
none. -/
def jsIndexOf (ci : Bool) (s pat : List Char) : Int :=
  jsIndexOfAux ci pat 0 s

/-- `s.includes(pat)` (with `ci` selecting case-insensitive search). -/
def containsSub (ci : Bool) (s pat : List Char) : Bool :=
  decide (0 ≤ jsIndexOf ci s pat)

/-- `s.substring(a, b)`: both arguments clamped into `[0, s.length]` and
swapped when out of order, per the JS specification. -/
def jsSubstring (s : List Char) (a b : Int) : List Char :=
  let n : Int := s.length
  let a' := min (max a 0) n
  let b' := min (max b 0) n
  let lo := (min a' b').toNat
  let hi := (max a' b').toNat
  (s.take hi).drop lo

/-- `s.trim()`: strip leading and trailing JS whitespace. -/
def jsTrim (l : List Char) : List Char :=
  ((l.dropWhile isSpaceChar).reverse.dropWhile isSpaceChar).reverse

/-! ## A small JS regular-expression engine

`new RegExp(pattern, 'i')` followed by `.test(s)` is modelled by parsing
the pattern text into the `RE` syntax tree (`jsRegexParse`, which returns
`none` exactly where JS would throw a `SyntaxError`, e.g. an unterminated
group) and running a backtracking matcher at every start position
(`reTest`), matching the leftmost-match / existence semantics of `test`.
The engine covers the constructs occurring in the patterns the source
builds: literals, character classes, `.`, `^`, `$`, `\b`, `\d`, `\s`,
`\S`, `\w`, alternation, groups, and greedy/lazy `*`, `+`, `?`. -/

/-- One item of a character class. -/
inductive ClsItem where
  | ch (c : Char)
  | digit
  | space
  | nonspace
  | word
deriving DecidableEq, Repr

/-- Regular-expression syntax trees. -/
inductive RE where
  | eps
  | lit (c : Char)
  | cls (neg : Bool) (items : List ClsItem)
  | dot
  | seq (a b : RE)
  | alt (a b : RE)
  | star (lazy : Bool) (a : RE)
  | plus (lazy : Bool) (a : RE)
  | opt (lazy : Bool) (a : RE)
  | wb
  | bos
  | eos
deriving Repr

/-- Does character `c` match one class item (under the `i` flag when
`ci`)? -/
def clsItemMatches (ci : Bool) (c : Char) : ClsItem → Bool
  | .ch d => eqc ci c d
  | .digit => isDigitChar c
  | .space => isSpaceChar c
  | .nonspace => !isSpaceChar c
  | .word => isWordChar c

/-- JS `.` (no `s` flag): any character except a line terminator. -/
def dotMatches (c : Char) : Bool :=
  !(c == '\n' || c == '\r' || c == '\u2028' || c == '\u2029')

/-- A `\b` word boundary between the previous character (`none` at the
start of the input) and the rest of the input. -/
def atWordBoundary (prev : Option Char) (s : List Char) : Bool :=
  let wl := match prev with | none => false | some c => isWordChar c
  let wr := match s with | [] => false | c :: _ => isWordChar c
  wl != wr

/-- Size of a syntax tree, used to budget the matcher's fuel. -/
def reSize : RE → Nat
  | .eps | .lit _ | .cls _ _ | .dot | .wb | .bos | .eos => 1
  | .seq a b | .alt a b => reSize a + reSize b + 1
  | .star _ a | .plus _ a | .opt _ a => reSize a + 1

/-- The backtracking matcher, in continuation-passing style.  `prev` is
the character just before the current position (for `\b` and `^`); the
continuation receives the updated `prev` and the rest of the input.  Fuel
only bounds recursion depth; `reTest` supplies enough for any match
attempt over its input. -/
def reMatch (ci : Bool) :
    Nat → RE → Option Char → List Char → (Option Char → List Char → Bool) → Bool
  | 0, _, _, _, _ => false
  | _ + 1, .eps, prev, s, k => k prev s
  | _ + 1, .lit c, prev, s, k =>
    match prev, s with
    | _, [] => false
    | _, a :: rest => eqc ci a c && k (some a) rest
  | _ + 1, .cls neg items, prev, s, k =>
    match prev, s with
    | _, [] => false
    | _, a :: rest =>
      (if neg then !(items.any (clsItemMatches ci a)) else items.any (clsItemMatches ci a))
        && k (some a) rest
  | _ + 1, .dot, prev, s, k =>
    match prev, s with
    | _, [] => false
    | _, a :: rest => dotMatches a && k (some a) rest
  | f + 1, .seq a b, prev, s, k =>
    reMatch ci f a prev s (fun p' s' => reMatch ci f b p' s' k)
  | f + 1, .alt a b, prev, s, k =>
    reMatch ci f a prev s k || reMatch ci f b prev s k
  | f + 1, .star lz a, prev, s, k =>
    if lz then
      k prev s ||
        reMatch ci f a prev s (fun p' s' =>
          decide (s'.length < s.length) && reMatch ci f (.star lz a) p' s' k)
    else
      reMatch ci f a prev s (fun p' s' =>
        decide (s'.length < s.length) && reMatch ci f (.star lz a) p' s' k) ||
        k prev s
  | f + 1, .plus lz a, prev, s, k =>
    reMatch ci f a prev s (fun p' s' =>
      if decide (s'.length < s.length) then reMatch ci f (.star lz a) p' s' k
      else k p' s')
  | f + 1, .opt lz a, prev, s, k =>
    if lz then k prev s || reMatch ci f a prev s k
    else reMatch ci f a prev s k || k prev s
  | _ + 1, .wb, prev, s, k => atWordBoundary prev s && k prev s
  | _ + 1, .bos, prev, s, k => prev.isNone && k prev s
  | _ + 1, .eos, prev, s, k => s.isEmpty && k prev s

/-- Fuel amply covering any single match attempt of `re` over `s`. -/
def reFuel (re : RE) (s : List Char) : Nat :=
  (reSize re + 2) * (s.length + 2) + 16

/-- Try a match at the current position and, failing that, at every later
start position: the scan `RegExp.prototype.test` performs. -/
def reTestFrom (ci : Bool) (re : RE) (fuel : Nat) : Option Char → List Char → Bool
  | prev, s =>
    reMatch ci fuel re prev s (fun _ _ => true) ||
      match s with
      | [] => false
      | c :: rest => reTestFrom ci re fuel (some c) rest

/-- `new RegExp(pattern).test(s)` for an already-parsed pattern. -/
def reTest (ci : Bool) (re : RE) (s : List Char) : Bool :=
  reTestFrom ci re (reFuel re s) none s

/-! ### Parsing a pattern string into an `RE`

`jsRegexParse` follows the JS pattern grammar on the construct repertoire
the source builds, including Annex-B leniency for a `]`, `{` or `}`
standing alone (a literal).  It fails — as `new RegExp` throws — on an
unterminated group or class, a dangling `)`, a quantifier with nothing to
repeat, or a trailing backslash. -/

/-- An escape sequence `\c` as an atom. -/
def escAtom (c : Char) : RE :=
  if c == 'd' then .cls false [.digit]
  else if c == 'D' then .cls true [.digit]
  else if c == 's' then .cls false [.space]
  else if c == 'S' then .cls true [.space]
  else if c == 'w' then .cls false [.word]
  else if c == 'W' then .cls true [.word]
  else if c == 'b' then .wb
  else if c == 'n' then .lit '\n'
  else if c == 'r' then .lit '\r'
  else if c == 't' then .lit '\t'
  else if c == 'f' then .lit '\x0c'
  else if c == 'v' then .lit '\x0b'
  else .lit c

/-- An escape sequence `\c` inside a character class. -/
def escClsItem (c : Char) : ClsItem :=
  if c == 'd' then .digit
  else if c == 's' then .space
  else if c == 'S' then .nonspace
  else if c == 'w' then .word
  else if c == 'n' then .ch '\n'
  else if c == 'r' then .ch '\r'
  else if c == 't' then .ch '\t'
  else if c == 'f' then .ch '\x0c'
  else if c == 'v' then .ch '\x0b'
  else if c == 'b' then .ch '\x08'
  else .ch c

/-- Parse the inside of a `[...]` class up to the closing `]`. -/
def parseClsItems : List Char → List ClsItem → Option (List ClsItem × List Char)
  | [], _ => none
  | ']' :: rest, acc => some (acc.reverse, rest)
  | '\\' :: [], _ => none
  | '\\' :: e :: rest, acc => parseClsItems rest (escClsItem e :: acc)
  | c :: rest, acc => parseClsItems rest (.ch c :: acc)

/-- Fold a list of terms into their sequential composition. -/
def seqAll : List RE → RE
  | [] => .eps
  | [r] => r
  | r :: rest => .seq r (seqAll rest)

mutual

/-- Parse an alternation (`a|b|...`), stopping before an unmatched `)`. -/
def parseReAlt (fuel : Nat) (s : List Char) : Option (RE × List Char) :=
  match fuel with
  | 0 => none
  | f + 1 =>
    match parseReSeq f s [] with
    | none => none
    | some (r, rest) =>
      match rest with
      | '|' :: rest' =>
        match parseReAlt f rest' with
        | none => none
        | some (r2, rest2) => some (.alt r r2, rest2)
      | _ => some (r, rest)

/-- Parse a sequence of quantified atoms, stopping at `|`, `)` or the
end. -/
def parseReSeq (fuel : Nat) (s : List Char) (acc : List RE) : Option (RE × List Char) :=
  match fuel with
  | 0 => none
  | f + 1 =>
    match s with
    | [] => some (seqAll acc.reverse, [])
    | '|' :: _ => some (seqAll acc.reverse, s)
    | ')' :: _ => some (seqAll acc.reverse, s)
    | _ =>
      match parseReAtom f s with
      | none => none
      | some (a, rest) =>
        match rest with
        | '*' :: '?' :: rest' => parseReSeq f rest' (.star true a :: acc)
        | '*' :: rest' => parseReSeq f rest' (.star false a :: acc)
        | '+' :: '?' :: rest' => parseReSeq f rest' (.plus true a :: acc)
        | '+' :: rest' => parseReSeq f rest' (.plus false a :: acc)
        | '?' :: '?' :: rest' => parseReSeq f rest' (.opt true a :: acc)
        | '?' :: rest' => parseReSeq f rest' (.opt false a :: acc)
        | _ => parseReSeq f rest (a :: acc)

/-- Parse one atom.  A quantifier with nothing to repeat, a dangling `)`,
an unterminated group or class, or a trailing `\` is a syntax error. -/
def parseReAtom (fuel : Nat) (s : List Char) : Option (RE × List Char) :=
  match fuel with
  | 0 => none
  | f + 1 =>
    match s with
    | [] => none
    | '(' :: rest =>
      match parseReAlt f rest with
      | none => none
      | some (r, rest') =>
        match rest' with
        | ')' :: rest2 => some (r, rest2)
        | _ => none
    | ')' :: _ => none
    | '[' :: '^' :: rest =>
      match parseClsItems rest [] with
      | none => none
      | some (items, rest') => some (.cls true items, rest')
    | '[' :: rest =>
      match parseClsItems rest [] with
      | none => none
      | some (items, rest') => some (.cls false items, rest')
    | '\\' :: [] => none
    | '\\' :: e :: rest => some (escAtom e, rest)
    | '.' :: rest => some (.dot, rest)
    | '^' :: rest => some (.bos, rest)
    | '$' :: rest => some (.eos, rest)
    | '*' :: _ => none
    | '+' :: _ => none
    | '?' :: _ => none
    | c :: rest => some (.lit c, rest)

end

/-- `new RegExp(pattern, ...)`: parse a pattern string, `none` where JS
throws a `SyntaxError`. -/
def jsRegexParse (pattern : List Char) : Option RE :=
  match parseReAlt (2 * pattern.length + 8) pattern with
  | some (r, []) => some r
  | _ => none

/-! ## JSON values and `JSON.parse`

`jsonParse` models `JSON.parse` as an executable parser returning `none`
exactly where JS throws a `SyntaxError`.  Numbers are kept as their
(grammar-validated) source text, since no code path of the repository
reads a numeric value; object fields keep every key/value pair in order
and property lookup takes the last binding of a key, as `JSON.parse`
does. -/

/-- A parsed JSON value. -/
inductive Json where
  | null
  | bool (b : Bool)
  | num (raw : String)
  | str (s : String)
  | arr (elems : List Json)
  | obj (fields : List (String × Json))
deriving Repr

/-- JSON whitespace (space, tab, line feed, carriage return). -/
def isJsonWs (c : Char) : Bool :=
  c == ' ' || c == '\t' || c == '\n' || c == '\r'

/-- Skip JSON whitespace. -/
def skipJsonWs (l : List Char) : List Char := l.dropWhile isJsonWs

/-- The value of one hexadecimal digit (`0-9`, `a-f`, `A-F`), `none` for
any other character. -/
def hexVal (c : Char) : Option Nat :=
  let n := c.toNat
  if 48 ≤ n && n ≤ 57 then some (n - 48)
  else if 97 ≤ n && n ≤ 102 then some (n - 87)
  else if 65 ≤ n && n ≤ 70 then some (n - 55)
  else none

/-- Four hexadecimal digits of a `\uXXXX` escape. -/
def parseHex4 : List Char → Option (Nat × List Char)
  | a :: b :: c :: d :: rest =>
    match hexVal a, hexVal b, hexVal c, hexVal d with
    | some x, some y, some z, some w => some (((x * 16 + y) * 16 + z) * 16 + w, rest)
    | _, _, _, _ => none
  | _ => none

/-- Turn a code point into a character; a lone UTF-16 surrogate (which is
not a Unicode scalar and so not a `Char`) becomes U+FFFD.  The claims'
inputs contain no surrogate escapes. -/
def charOfCodePoint (n : Nat) : Char :=
  if h : n < 0xd800 ∨ (0xe000 ≤ n ∧ n < 0x110000) then
    Char.ofNatAux n (by cases h with
      | inl h => exact Or.inl h
      | inr h => exact Or.inr ⟨h.1, h.2⟩)
  else '�'

/-- The body of a JSON string, after the opening quote: escape sequences,
no unescaped control characters, up to the closing quote.  A high
surrogate escape directly followed by a low surrogate escape combines into
one scalar, as the UTF-16 pair denotes. -/
def parseJsonStringBody : Nat → List Char → List Char → Option (String × List Char)
  | 0, _, _ => none
  | _ + 1, [], _ => none
  | _ + 1, '"' :: rest, acc => some (String.mk acc.reverse, rest)
  | f + 1, '\\' :: e :: rest, acc =>
    if e == '"' then parseJsonStringBody f rest ('"' :: acc)
    else if e == '\\' then parseJsonStringBody f rest ('\\' :: acc)
    else if e == '/' then parseJsonStringBody f rest ('/' :: acc)
    else if e == 'b' then parseJsonStringBody f rest ('\x08' :: acc)
    else if e == 'f' then parseJsonStringBody f rest ('\x0c' :: acc)
    else if e == 'n' then parseJsonStringBody f rest ('\n' :: acc)
    else if e == 'r' then parseJsonStringBody f rest ('\r' :: acc)
    else if e == 't' then parseJsonStringBody f rest ('\t' :: acc)
    else if e == 'u' then
      match parseHex4 rest with
      | none => none
      | some (hi, rest') =>
        if 0xd800 ≤ hi && hi ≤ 0xdbff then
          match rest' with
          | '\\' :: 'u' :: rest2 =>
            match parseHex4 rest2 with
            | some (lo, rest3) =>
              if 0xdc00 ≤ lo && lo ≤ 0xdfff then
                parseJsonStringBody f rest3
                  (charOfCodePoint (0x10000 + (hi - 0xd800) * 0x400 + (lo - 0xdc00)) :: acc)
              else parseJsonStringBody f rest2 ('�' :: acc)
            | none => parseJsonStringBody f rest' ('�' :: acc)
          | _ => parseJsonStringBody f rest' ('�' :: acc)
        else parseJsonStringBody f rest' (charOfCodePoint hi :: acc)
    else none
  | _ + 1, '\\' :: [], _ => none
  | f + 1, c :: rest, acc =>
    if c.toNat < 0x20 then none else parseJsonStringBody f rest (c :: acc)

/-- A run of decimal digits, split off the input. -/
def takeDigits (l : List Char) : List Char × List Char :=
  (l.takeWhile isDigitChar, l.dropWhile isDigitChar)

/-- The fraction and exponent parts of a JSON number. -/
def parseJsonNumberTail (acc : List Char) (l : List Char) : Option (List Char × List Char) :=
  let (acc1, l1) : List Char × List Char := match l with
    | '.' :: rest =>
      let (ds, rest') := takeDigits rest
      if ds.isEmpty then (['!'], l) else (acc ++ '.' :: ds, rest')
    | _ => (acc, l)
  if acc1 == ['!'] then none
  else
    match l1 with
    | 'e' :: rest | 'E' :: rest =>
      let (sgn, rest1) : List Char × List Char := match rest with
        | '+' :: r => (['+'], r)
        | '-' :: r => (['-'], r)
        | _ => ([], rest)
      let (ds, rest2) := takeDigits rest1
      if ds.isEmpty then none
      else some (acc1 ++ 'e' :: sgn ++ ds, rest2)
    | _ => some (acc1, l1)

/-- A JSON number per the JSON grammar; returns the consumed source text
and the rest. -/
def parseJsonNumber (l : List Char) : Option (List Char × List Char) :=
  let (sign, l1) := match l with
    | '-' :: rest => (['-'], rest)
    | _ => (([] : List Char), l)
  match l1 with
  | '0' :: rest =>
    if (rest.headD ' ').toNat >= '0'.toNat && (rest.headD ' ').toNat <= '9'.toNat then none
    else parseJsonNumberTail (sign ++ ['0']) rest
  | c :: _ =>
    if '1' ≤ c && c ≤ '9' then
      let (ds, rest) := takeDigits l1
      parseJsonNumberTail (sign ++ ds) rest
    else none
  | [] => none

mutual

/-- One JSON value: leading whitespace, then a literal, number, string,
array or object. -/
def parseJsonValue (fuel : Nat) (l : List Char) : Option (Json × List Char) :=
  match fuel with
  | 0 => none
  | f + 1 =>
    match skipJsonWs l with
    | 't' :: 'r' :: 'u' :: 'e' :: rest => some (.bool true, rest)
    | 'f' :: 'a' :: 'l' :: 's' :: 'e' :: rest => some (.bool false, rest)
    | 'n' :: 'u' :: 'l' :: 'l' :: rest => some (.null, rest)
    | '"' :: rest =>
      match parseJsonStringBody (rest.length + 1) rest [] with
      | none => none
      | some (s, rest') => some (.str s, rest')
    | '[' :: rest =>
      match skipJsonWs rest with
      | ']' :: rest' => some (.arr [], rest')
      | _ => parseJsonArrayItems f rest []
    | '{' :: rest =>
      match skipJsonWs rest with
      | '}' :: rest' => some (.obj [], rest')
      | _ => parseJsonObjectItems f rest []
    | l' =>
      match parseJsonNumber l' with
      | none => none
      | some (raw, rest) => some (.num (String.mk raw), rest)

/-- The comma-separated items of a non-empty array, ending at `]`. -/
def parseJsonArrayItems (fuel : Nat) (l : List Char) (acc : List Json) :
    Option (Json × List Char) :=
  match fuel with
  | 0 => none
  | f + 1 =>
    match parseJsonValue f l with
    | none => none
    | some (v, rest) =>
      match skipJsonWs rest with
      | ',' :: rest' => parseJsonArrayItems f rest' (v :: acc)
      | ']' :: rest' => some (.arr (v :: acc).reverse, rest')
      | _ => none

/-- The comma-separated `"key": value` members of a non-empty object,
ending at `}`. -/
def parseJsonObjectItems (fuel : Nat) (l : List Char) (acc : List (String × Json)) :
    Option (Json × List Char) :=
  match fuel with
  | 0 => none
  | f + 1 =>
    match skipJsonWs l with
    | '"' :: rest =>
      match parseJsonStringBody (rest.length + 1) rest [] with
      | none => none
      | some (key, rest1) =>
        match skipJsonWs rest1 with
        | ':' :: rest2 =>
          match parseJsonValue f rest2 with
          | none => none
          | some (v, rest3) =>
            match skipJsonWs rest3 with
            | ',' :: rest4 => parseJsonObjectItems f rest4 ((key, v) :: acc)
            | '}' :: rest4 => some (.obj ((key, v) :: acc).reverse, rest4)
            | _ => none
        | _ => none
    | _ => none

end

/-- `JSON.parse(text)`: `none` exactly where JS throws. -/
def jsonParse (l : List Char) : Option Json :=
  match parseJsonValue (2 * l.length + 8) l with
  | some (v, rest) => if (skipJsonWs rest).isEmpty then some v else none
  | none => none

/-- JS property access `j.key` on a parsed JSON value: defined bindings on
objects (the last binding of the key, as `JSON.parse` retains), and
`undefined` (here `none`) on every other value. -/
def propGet (j : Json) (key : String) : Option Json :=
  match j with
  | .obj fs => fs.foldl (fun acc p => if p.1 = key then some p.2 else acc) none
  | _ => none

/-- Is a JSON number's source text a representation of zero (every
mantissa digit `0`)? -/
def numIsZero (raw : String) : Bool :=
  (raw.data.takeWhile (fun c => !(c == 'e' || c == 'E'))).all
    (fun c => !('1' ≤ c && c ≤ '9'))

/-- JS truthiness of a property-access result (`none` is `undefined`). -/
def jsTruthy : Option Json → Bool
  | none => false
  | some .null => false
  | some (.bool b) => b
  | some (.num raw) => !numIsZero raw
  | some (.str s) => s ≠ ""
  | some (.arr _) => true
  | some (.obj _) => true

/-- `v || d` on a property-access result, as in
`parsed.confidence || 'medium'`. -/
def jsOr (v : Option Json) (d : Json) : Json :=
  match v with
  | some j => if jsTruthy (some j) then j else d
  | none => d

/-! ## The markup heuristic classifier (`src/stock-checker.ts`)

The embedding below follows the first (current) copy of
`stock-checker.ts`; the file's second, legacy snapshot of the same class
(after the document separator) is not part of the compiled program and is
not embedded. -/

/-- Does the run of characters before the first `>` of a `<script ...>`
tag contain `type=` followed by a quote, `application/ld+json`
(case-insensitively) and a quote — i.e. can
`[^>]*type=["']application\/ld\+json["'][^>]*` match the tag body? -/
def scanTypeAttr : List Char → Bool
  | [] => false
  | c :: rest =>
    (headMatches true "type=".data (c :: rest) &&
      (match (c :: rest).drop 5 with
       | q :: r =>
         (q == '"' || q == '\'') && headMatches true "application/ld+json".data r &&
           (match r.drop 19 with
            | q2 :: _ => q2 == '"' || q2 == '\''
            | [] => false)
       | [] => false)) ||
      scanTypeAttr rest

/-- One attempt of the JSON-LD script regex at a position whose text
starts with `<script` (already consumed): greedily cross the non-`>` run,
require the `type` attribute inside it, the closing `>`, and a later
`</script>`; the capture group is the lazy `([\s\S]*?)` — everything up to
the first `</script>`. -/
def jsonLdAttempt (rest : List Char) : Option (List Char) :=
  let run := rest.takeWhile (fun c => !(c == '>'))
  match rest.drop run.length with
  | '>' :: tail =>
    if scanTypeAttr run then
      let j := jsIndexOf true tail "</script>".data
      if j < 0 then none else some (tail.take j.toNat)
    else none
  | _ => none

/-- `html.match(/<script[^>]*type=["']application\/ld\+json["'][^>]*>([\s\S]*?)<\/script>/i)`:
the capture group of the leftmost match, scanning start positions left to
right as the regex engine does. -/
def extractJsonLd : List Char → Option (List Char)
  | [] => none
  | c :: rest =>
    if headMatches true "<script".data (c :: rest) then
      match jsonLdAttempt ((c :: rest).drop 7) with
      | some cap => some cap
      | none => extractJsonLd rest
    else extractJsonLd rest

/-- `data?.offers?.availability?.toLowerCase()`: optional chaining with
property access, then `toLowerCase`.  `.error` marks the `TypeError` a
non-string, non-nullish `availability` raises (caught by the source's
`try`); `.ok none` is `undefined`. -/
def availabilityLower (data : Json) : Except Unit (Option (List Char)) :=
  let offers : Option Json :=
    match data with
    | .null => none
    | _ => propGet data "offers"
  let av : Option Json :=
    match offers with
    | none => none
    | some .null => none
    | some o => propGet o "availability"
  match av with
  | none => .ok none
  | some .null => .ok none
  | some (.str s) => .ok (some (lowerStr s.data))
  | some _ => .error ()

/-- `checkStructuredData(html)` of `stock-checker.ts` (lines 130–156):
find a JSON-LD block, parse it, read `offers.availability` and map the
availability string; every failure (no block, `JSON.parse` throw,
`TypeError` on `toLowerCase`, falsy or unrecognized availability) yields
`null`. -/
def checkStructuredData (h : List Char) : Option StockStatus :=
  match extractJsonLd h with
  | none => none
  | some captured =>
    match jsonParse captured with
    | none => none
    | some data =>
      match availabilityLower data with
      | .error _ => none
      | .ok none => none
      | .ok (some av) =>
        if av.isEmpty then none
        else if containsSub false av "instock".data || containsSub false av "in_stock".data then
          some .in_stock
        else if containsSub false av "outofstock".data ||
            containsSub false av "out_of_stock".data then
          some .unavailable
        else if containsSub false av "limitedavailability".data then
          some .few_left
        else none

/-- The out-of-stock pattern of `parseStockStatus` (line 104), verbatim:
`/\b(out of stock|sold out|currently unavailable|not available|unavailable)\b/i`. -/
def outOfStockPatternSrc : String :=
  "\\b(out of stock|sold out|currently unavailable|not available|unavailable)\\b"

/-- The low-stock pattern (line 111), verbatim:
`/\b(low stock|few left|limited stock|only \d+ left)\b/i`. -/
def lowStockPatternSrc : String :=
  "\\b(low stock|few left|limited stock|only \\d+ left)\\b"

/-- The disabled-state pattern (line 99), verbatim:
`/disabled|aria-disabled="true"|class="[^"]*disabled[^"]*"/i`. -/
def disabledPatternSrc : String :=
  "disabled|aria-disabled=\"true\"|class=\"[^\"]*disabled[^\"]*\""

/-- The parsed out-of-stock pattern (a literal pattern; parsing cannot
fail at run time). -/
def outOfStockRE : Option RE := jsRegexParse outOfStockPatternSrc.data

/-- The parsed low-stock pattern. -/
def lowStockRE : Option RE := jsRegexParse lowStockPatternSrc.data

/-- The parsed disabled-state pattern. -/
def disabledRE : Option RE := jsRegexParse disabledPatternSrc.data

/-- `.test` through an optional parsed pattern (the `none` case is
unreachable for the literal patterns above). -/
def reTestOpt (o : Option RE) (s : List Char) : Bool :=
  match o with
  | some re => reTest true re s
  | none => false

/-- `outOfStockPattern.test(html)`. -/
def outOfStockTest (s : List Char) : Bool := reTestOpt outOfStockRE s

/-- `lowStockPattern.test(html)`. -/
def lowStockTest (s : List Char) : Bool := reTestOpt lowStockRE s

/-- The disabled-state test over a button section. -/
def disabledTest (s : List Char) : Bool := reTestOpt disabledRE s

/-- `hasAddToCart` (lines 83–87): the five purchase-affordance substrings
over the lower-cased document. -/
def hasAddToCartFn (lowerHtml : List Char) : Bool :=
  containsSub false lowerHtml "add to cart".data ||
    containsSub false lowerHtml "add to bag".data ||
    containsSub false lowerHtml "add to basket".data ||
    containsSub false lowerHtml "buy now".data ||
    containsSub false lowerHtml "purchase".data

/-- `buttonSection` (lines 94–97): the window
`lowerHtml.substring(max(0, i - 1500), min(length, i + 1500))` around
`i = lowerHtml.indexOf('add to cart')` — which is `-1`, and the window the
document's first 1499 characters, when `'add to cart'` is absent and the
affordance was another phrase. -/
def buttonSection (lowerHtml : List Char) : List Char :=
  let addToCartIndex := jsIndexOf false lowerHtml "add to cart".data
  jsSubstring lowerHtml (max 0 (addToCartIndex - 1500))
    (min (lowerHtml.length : Int) (addToCartIndex + 1500))

/-- `hasDisabledButton` (lines 92–101): only evaluated when an affordance
was found, over the window around `'add to cart'`. -/
def hasDisabledButtonFn (lowerHtml : List Char) : Bool :=
  if hasAddToCartFn lowerHtml then disabledTest (buttonSection lowerHtml) else false

/-- `parseStockStatus(html)` of `stock-checker.ts` (lines 72–128):
structured data first, then the whole-document out-of-stock and low-stock
pattern scans, then the affordance/disabled resolution, default
`in_stock`. -/
def parseStockStatus (html : String) : StockStatus :=
  let h := html.data
  let lowerHtml := lowerStr h
  match checkStructuredData h with
  | some s => s
  | none =>
    if outOfStockTest h then .unavailable
    else if lowStockTest h then .few_left
    else if hasAddToCartFn lowerHtml && !hasDisabledButtonFn lowerHtml then .in_stock
    else if hasAddToCartFn lowerHtml && hasDisabledButtonFn lowerHtml then .unavailable
    else .in_stock

/-- The first-match capture of `/Label:\s*([^,]+)/i` followed by
`.trim()`, as `parseVariantStock` extracts `Size`/`Color` sub-values.  At
each occurrence of the label the regex matches iff at least one character
other than `,` follows (whitespace is matched by `[^,]`; `\s*`
backtracking makes the trimmed capture equal the trimmed segment up to the
first comma); otherwise the scan moves one position right. -/
def extractLabelValue (label : List Char) : List Char → Option (List Char)
  | [] => none
  | c :: rest =>
    if headMatches true label (c :: rest) then
      let seg := ((c :: rest).drop label.length).takeWhile (fun d => !(d == ','))
      if seg.isEmpty then extractLabelValue label rest
      else some (jsTrim seg)
    else extractLabelValue label rest

/-- `variantString.match(/Size:\s*([^,]+)/i)?.[1].trim()` (lines 46, 49). -/
def variantSizeValue (variantString : String) : Option String :=
  (extractLabelValue "size:".data variantString.data).map String.mk

/-- `variantString.match(/Color:\s*([^,]+)/i)?.[1].trim()` (lines 47, 50).
Extracted by the source but never consulted afterwards. -/
def variantColorValue (variantString : String) : Option String :=
  (extractLabelValue "color:".data variantString.data).map String.mk

/-- JS truthiness of the optional extracted size, as `if (size)` tests it:
present and non-empty. -/
def sizeTruthy (size : Option String) : Bool :=
  match size with
  | some s => s ≠ ""
  | none => false

/-- The dynamic pattern
`` `${size}[^<]*?(out of stock|sold out|unavailable|disabled)` ``
(line 54). -/
def sizeUnavailablePatternOf (size : String) : String :=
  size ++ "[^<]*?(out of stock|sold out|unavailable|disabled)"

/-- The dynamic pattern
`` `data-size=["']${size}["'][^>]*(disabled|class="[^"]*disabled[^"]*")` ``
(line 61). -/
def sizeButtonPatternOf (size : String) : String :=
  "data-size=[\"']" ++ size ++ "[\"'][^>]*(disabled|class=\"[^\"]*disabled[^\"]*\")"

/-- The message of the `SyntaxError` `new RegExp` throws on an invalid
pattern (runtime-specific text, abstracted). -/
def regexSyntaxError : String := "SyntaxError: Invalid regular expression"

/-- `parseVariantStock(html, variantString)` of `stock-checker.ts` (lines
42–70).  The size token is interpolated into two `new RegExp`
constructions, so the function can throw a `SyntaxError` (modelled as
`.error`) when the token is not a valid pattern fragment; otherwise it
returns `unavailable` on a variant-specific match or falls back to
`parseStockStatus`. -/
def parseVariantStock (html variantString : String) : Except String StockStatus :=
  let size := variantSizeValue variantString
  let _color := variantColorValue variantString
  if sizeTruthy size then
    let s := size.getD ""
    match jsRegexParse (sizeUnavailablePatternOf s).data with
    | none => .error regexSyntaxError
    | some sizeUnavailablePattern =>
      if reTest true sizeUnavailablePattern html.data then .ok .unavailable
      else
        match jsRegexParse (sizeButtonPatternOf s).data with
        | none => .error regexSyntaxError
        | some sizeButtonPattern =>
          if reTest true sizeButtonPattern html.data then .ok .unavailable
          else .ok (parseStockStatus html)
  else .ok (parseStockStatus html)

/-! ## The AI vision response parsers (`src/ai-vision-service.ts`)

The model's answer is a message whose content blocks are text or
non-text.  The TypeScript interfaces declare `confidence` as one of three
strings and `reasoning` as a string, but the parsers copy the parsed JSON
fields without a runtime check, so the embedded result types carry the
actual runtime values (`Json`), with `none` for `undefined`. -/

/-- One content block of the model's message. -/
inductive ContentBlock where
  | text (s : String)
  | other
deriving Repr

/-- The model's message (`Anthropic.Message`), reduced to what the
parsers read: its content blocks. -/
structure MessageResp where
  content : List ContentBlock

/-- The runtime shape of `StockCheckResult`. -/
structure StockCheckResult where
  status : StockStatus
  confidence : Json
  reasoning : Json
deriving Repr

/-- The runtime shape of `VariantDetectionResult`; `variants` holds the
unvalidated elements of the model's array. -/
structure VariantDetectionResult where
  variants : List Json
  confidence : Json
  reasoning : Option Json
deriving Repr

/-- `text.match(/\{[\s\S]*\}/)?.[0]`: the leftmost match runs from the
first `{` to the last `}` (greedy `[\s\S]*` backtracking to the last
closing brace), and exists iff some `}` stands at or after the first
`{`. -/
def braceSpan (text : List Char) : Option (List Char) :=
  match text.findIdx? (fun c => c == '{'), text.reverse.findIdx? (fun c => c == '}') with
  | some i, some jr =>
    let j := text.length - 1 - jr
    if i ≤ j then some ((text.take (j + 1)).drop i) else none
  | _, _ => none

/-- The `TypeError` message of reading `.type` on `content[0]` of an
empty content array (runtime-specific text, abstracted). -/
def undefinedTypeError : String := "TypeError: cannot read properties of undefined"

/-- The `SyntaxError` message of a failing `JSON.parse`
(runtime-specific text, abstracted). -/
def jsonSyntaxError : String := "SyntaxError: Unexpected token in JSON"

mutual

/-- JS `String(value)` coercion, for the `` `Invalid status: ${...}` ``
interpolation (number formatting approximated by the number's source
text). -/
def jsDisplayJ : Json → String
  | .null => "null"
  | .bool true => "true"
  | .bool false => "false"
  | .num raw => raw
  | .str s => s
  | .arr l => String.intercalate "," (jsDisplayArr l)
  | .obj _ => "[object Object]"

/-- Array elements under `Array.prototype.join`: `null` displays as the
empty string. -/
def jsDisplayArr : List Json → List String
  | [] => []
  | .null :: rest => "" :: jsDisplayArr rest
  | j :: rest => jsDisplayJ j :: jsDisplayArr rest

end

/-- `String(value)` on a property-access result. -/
def jsDisplay (v : Option Json) : String :=
  match v with
  | none => "undefined"
  | some j => jsDisplayJ j

/-- `validStatuses.includes(parsed.status)` (line 278–279): only one of
the three status strings passes, under strict (`===`) comparison. -/
def statusOf : Option Json → Option StockStatus
  | some (.str s) =>
    if s = "in_stock" then some .in_stock
    else if s = "few_left" then some .few_left
    else if s = "unavailable" then some .unavailable
    else none
  | _ => none

/-- The `try` block of `parseStockResponse` (lines 261–287): `.error`
carries the message of the exception the block throws. -/
def parseStockResponseE (resp : MessageResp) : Except String StockCheckResult :=
  match resp.content.head? with
  | none => .error undefinedTypeError
  | some .other => .error "Unexpected response type from Claude"
  | some (.text text) =>
    match braceSpan text.data with
    | none => .error "No JSON found in Claude response"
    | some span =>
      match jsonParse span with
      | none => .error jsonSyntaxError
      | some parsed =>
        match statusOf (propGet parsed "status") with
        | none => .error ("Invalid status: " ++ jsDisplay (propGet parsed "status"))
        | some st =>
          .ok { status := st
              , confidence := jsOr (propGet parsed "confidence") (.str "medium")
              , reasoning := jsOr (propGet parsed "reasoning") (.str "No reasoning provided") }

/-- The conservative default of `parseStockResponse`'s `catch` (lines
288–296). -/
def degradedStockResult (msg : String) : StockCheckResult :=
  { status := .unavailable
  , confidence := .str "low"
  , reasoning := .str ("Failed to parse AI response: " ++ msg) }

/-- `parseStockResponse` of `ai-vision-service.ts` (lines 261–297): the
`try` block, with every parse/validation failure degraded to the
conservative default rather than propagated. -/
def parseStockResponse (resp : MessageResp) : StockCheckResult :=
  match parseStockResponseE resp with
  | .ok r => r
  | .error m => degradedStockResult m

/-- The `try` block of `parseVariantResponse` (lines 221–246). -/
def parseVariantResponseE (resp : MessageResp) : Except String VariantDetectionResult :=
  match resp.content.head? with
  | none => .error undefinedTypeError
  | some .other => .error "Unexpected response type from Claude"
  | some (.text text) =>
    match braceSpan text.data with
    | none => .error "No JSON found in Claude response"
    | some span =>
      match jsonParse span with
      | none => .error jsonSyntaxError
      | some parsed =>
        match propGet parsed "variants" with
        | some (.arr l) =>
          .ok { variants := l
              , confidence := jsOr (propGet parsed "confidence") (.str "medium")
              , reasoning := propGet parsed "reasoning" }
        | _ => .error "Invalid response: variants must be an array"

/-- The empty low-confidence default of `parseVariantResponse`'s `catch`
(lines 247–255). -/
def degradedVariantResult (msg : String) : VariantDetectionResult :=
  { variants := []
  , confidence := .str "low"
  , reasoning := some (.str ("Failed to parse AI response: " ++ msg)) }

/-- `parseVariantResponse` of `ai-vision-service.ts` (lines 221–256). -/
def parseVariantResponse (resp : MessageResp) : VariantDetectionResult :=
  match parseVariantResponseE resp with
  | .ok r => r
  | .error m => degradedVariantResult m

/-! ## The response cache (`src/ai-vision-service.ts`, lines 312–343)

`this.cache` is a JS `Map` from string keys to `{result, timestamp}`
entries, modelled as an association list in insertion order with the
`Map` operations `get`/`set`/`delete`.  `Date.now()` is passed in
explicitly as `now`. -/

/-- A cache entry `{ result, timestamp }`. -/
structure CacheEntry (α : Type) where
  result : α
  timestamp : Int
deriving Repr, DecidableEq

/-- `CACHE_TTL = 5 * 60 * 1000` (five minutes, line 25). -/
def CACHE_TTL : Int := 5 * 60 * 1000

/-- The cache: a JS `Map` in insertion order. -/
abbrev Cache (α : Type) := List (String × CacheEntry α)

/-- `Map.prototype.get`: the entry of the first (only) binding of a
key. -/
def mapGet {α : Type} : Cache α → String → Option (CacheEntry α)
  | [], _ => none
  | (k', v) :: rest, k => if k' = k then some v else mapGet rest k

/-- `Map.prototype.has`. -/
def mapHas {α : Type} (m : Cache α) (k : String) : Bool := (mapGet m k).isSome

/-- `Map.prototype.set`: replace the binding of an existing key in place,
else append a new binding. -/
def mapSet {α : Type} (m : Cache α) (k : String) (v : CacheEntry α) : Cache α :=
  if mapHas m k then m.map (fun p => if p.1 = k then (k, v) else p)
  else m ++ [(k, v)]

/-- `Map.prototype.delete`. -/
def mapDelete {α : Type} (m : Cache α) (k : String) : Cache α :=
  m.filter (fun p => p.1 ≠ k)

/-- `getFromCache(key)` (lines 312–323): a hit only when the entry's age
does not exceed `CACHE_TTL`; an older entry is deleted and reported
absent.  Returns the result (if any) and the cache after the access. -/
def getFromCache {α : Type} (cache : Cache α) (now : Int) (key : String) :
    Option α × Cache α :=
  match mapGet cache key with
  | none => (none, cache)
  | some e =>
    if now - e.timestamp > CACHE_TTL then (none, mapDelete cache key)
    else (some e.result, cache)

/-- `setCache(key, result)` (lines 328–343): store with the current
timestamp; when the entry count then exceeds 100, sweep every expired
entry (and only those). -/
def setCache {α : Type} (cache : Cache α) (now : Int) (key : String) (result : α) :
    Cache α :=
  let c := mapSet cache key { result := result, timestamp := now }
  if c.length > 100 then c.filter (fun p => !(now - p.2.timestamp > CACHE_TTL)) else c

/-! ## Derived predicates and concrete inputs used by the claims -/

/-- Is a property-access result a JSON array (`Array.isArray`)? -/
def isJsonArr : Option Json → Bool
  | some (.arr _) => true
  | _ => false

/-- The failure condition of `parseStockResponse` on a text answer: no
JSON object span, unparseable JSON, or a `status` that fails validation. -/
def stockRespMalformed (t : String) : Bool :=
  match braceSpan t.data with
  | none => true
  | some span =>
    match jsonParse span with
    | none => true
    | some parsed => (statusOf (propGet parsed "status")).isNone

/-- The failure condition of `parseVariantResponse` on a text answer: no
JSON object span, unparseable JSON, or a non-array `variants`. -/
def variantRespMalformed (t : String) : Bool :=
  match braceSpan t.data with
  | none => true
  | some span =>
    match jsonParse span with
    | none => true
    | some parsed => !isJsonArr (propGet parsed "variants")

/-- An input with a structured-data `InStock` marker, an explicit
"sold out" phrase in the body and an add-to-cart affordance. -/
def c2Html : String :=
  "<script type=\"application/ld+json\">\x7b\"offers\":\x7b\"availability\":\"https://schema.org/InStock\"\x7d\x7d</script> this item is sold out <button>add to cart</button>"

/-- An input whose only unavailability phrase stands more than 1500
characters after the `add to cart` affordance at index 0. -/
def c3Html : String :=
  "add to cart " ++ String.mk (List.replicate 1505 'x') ++ " sold out"

/-- An alternate-seller phrase next to a disabled add-to-cart button. -/
def c4Html : String := "see all buying options add to cart disabled"

/-- Whole-product text that classifies `in_stock` (the disabled size
selector stands outside the ±1500 window around `add to cart`), while the
`L` size selector carries a `disabled` indicator. -/
def c5Html : String :=
  "add to cart " ++ String.mk (List.replicate 1600 'x') ++
    " <button data-size=\"L\" disabled>L</button>"

/-- A disabled marker at the start of the document, more than 1500
characters away from the only affordance phrase (`buy now`, while
`add to cart` is absent). -/
def c8Html : String :=
  "disabled " ++ String.mk (List.replicate 1600 'x') ++ " buy now"

/-- A model answer whose `confidence` field is none of the three allowed
strings. -/
def c9Resp : MessageResp :=
  ⟨[.text "\x7b\"status\":\"in_stock\",\"confidence\":\"certain\",\"reasoning\":\"r\"\x7d"]⟩

/-- A model answer with a valid status, a variants array and no
`confidence` field. -/
def c9DefaultResp : MessageResp :=
  ⟨[.text "\x7b\"status\":\"in_stock\",\"variants\":[]\x7d"]⟩

/-- A model answer with no JSON object at all. -/
def c6Resp : MessageResp := ⟨[.text "I am not sure"]⟩

/-! ## The claims -/

/-- C1: the whole-product classifier is total — it always returns one of
the three statuses — but the claim fails for variant descriptors:
`parseVariantStock` interpolates the extracted size token into
`new RegExp`, and the descriptor `"Size: ("` yields the invalid pattern
`([^<]*?(out of stock|sold out|unavailable|disabled)`, so the construction
throws a `SyntaxError` instead of any status being returned (here: the
embedded classifier evaluates to `.error` at that failing input). -/
theorem classify_throws_on_regex_metachar_size :
    (∀ html : String,
        parseStockStatus html = .in_stock ∨ parseStockStatus html = .few_left ∨
          parseStockStatus html = .unavailable) ∧
      parseVariantStock "" "Size: (" = .error regexSyntaxError := by
  refine ⟨fun html => ?_, by rfl⟩
  cases parseStockStatus html
  · exact Or.inl rfl
  · exact Or.inr (Or.inl rfl)
  · exact Or.inr (Or.inr rfl)

/-- C2: whenever the structured-data check resolves to `in_stock`, the
whole-product classification is `in_stock`, whatever phrases (such as an
explicit "sold out") the body text contains: the structured-data tier is
evaluated first and short-circuits every later heuristic tier. -/
theorem structuredData_wins_over_sold_out (html : String)
    (h1 : checkStructuredData html.data = some .in_stock)
    (_h2 : containsSub false (lowerStr html.data) "sold out".data = true) :
    parseStockStatus html = .in_stock := by
  simp only [parseStockStatus]
  rw [h1]

/-- C2 witness: a concrete page carrying both a JSON-LD `InStock` marker
and a "sold out" phrase classifies `in_stock`. -/
theorem structuredData_wins_over_sold_out_witness :
    checkStructuredData c2Html.data = some .in_stock ∧
      containsSub false (lowerStr c2Html.data) "sold out".data = true ∧
      parseStockStatus c2Html = .in_stock :=
  ⟨by rfl, by rfl, structuredData_wins_over_sold_out c2Html (by rfl) (by rfl)⟩

/-- C3 counterexample: in `c3Html` the affordance `add to cart` sits at
index 0, the only unavailability phrase stands beyond the ±1500-character
window around it (the window holds no such phrase), and yet the
classification is `unavailable` — the phrase check is not scoped to the
affordance window. -/
theorem soldOut_outside_window_cex :
    hasAddToCartFn (lowerStr c3Html.data) = true ∧
      outOfStockTest (jsSubstring c3Html.data 0 1500) = false ∧
      outOfStockTest c3Html.data = true ∧
      parseStockStatus c3Html = .unavailable :=
  ⟨by rfl, by rfl, by rfl, by rfl⟩

/-- C3 (amended): the explicit-unavailability phrase check of the current
classifier always scans the whole document — whether or not a purchase
affordance exists — and a match anywhere forces `unavailable` (once the
structured-data tier yields nothing). -/
theorem unavailability_scan_whole_document (html : String)
    (h1 : checkStructuredData html.data = none)
    (h2 : outOfStockTest html.data = true) :
    parseStockStatus html = .unavailable := by
  simp only [parseStockStatus]
  rw [h1, h2]
  simp

/-- C3 witness: a document that is nothing but an unavailability phrase
(no affordance at all) classifies `unavailable` through the
whole-document scan. -/
theorem unavailability_scan_whole_document_witness :
    checkStructuredData "it is sold out".data = none ∧
      outOfStockTest "it is sold out".data = true ∧
      parseStockStatus "it is sold out" = .unavailable :=
  ⟨by rfl, by rfl, unavailability_scan_whole_document "it is sold out" (by rfl) (by rfl)⟩

/-- C4 counterexample: a page advertising "See All Buying Options" whose
add-to-cart button carries a disabled marker classifies `unavailable`, not
`in_stock`: the current classifier has no marketplace special case. -/
theorem buying_options_no_override_cex :
    containsSub false (lowerStr c4Html.data) "see all buying options".data = true ∧
      hasAddToCartFn (lowerStr c4Html.data) = true ∧
      hasDisabledButtonFn (lowerStr c4Html.data) = true ∧
      parseStockStatus c4Html = .unavailable :=
  ⟨by rfl, by rfl, by rfl, by rfl⟩

/-- C4 (amended): an alternate-seller phrase such as "See All Buying
Options" receives no special treatment from the current classifier: with a
disabled add-to-cart affordance (and no structured-data, unavailability-
or low-stock-tier signal) the page resolves through the ordinary
button-state rule to `unavailable`. -/
theorem disabled_affordance_resolves_unavailable (html : String)
    (_h0 : containsSub false (lowerStr html.data) "see all buying options".data = true)
    (h1 : checkStructuredData html.data = none)
    (h2 : outOfStockTest html.data = false)
    (h3 : lowStockTest html.data = false)
    (h4 : hasAddToCartFn (lowerStr html.data) = true)
    (h5 : hasDisabledButtonFn (lowerStr html.data) = true) :
    parseStockStatus html = .unavailable := by
  simp only [parseStockStatus]
  rw [h1, h2, h3, h4, h5]
  simp

/-- C4 witness: the counterexample page discharges every hypothesis of the
amended statement. -/
theorem disabled_affordance_resolves_unavailable_witness :
    checkStructuredData c4Html.data = none ∧ outOfStockTest c4Html.data = false ∧
      parseStockStatus c4Html = .unavailable :=
  ⟨by rfl, by rfl,
    disabled_affordance_resolves_unavailable c4Html (by rfl) (by rfl) (by rfl) (by rfl)
      (by rfl) (by rfl)⟩

/-- C5: whenever variant-scoped classification returns a status at all, it
is either `unavailable` (a variant-specific unavailability or
disabled-selector match) or exactly the whole-product classification of
the same page: variant signals only narrow toward `unavailable` and never
promote away from a whole-product `unavailable` or `few_left` result.
(Variant descriptors on which the regex construction throws return no
status; they are the subject of C1.) -/
theorem variant_narrowing_only (html variantString : String) (r : StockStatus)
    (h : parseVariantStock html variantString = .ok r) :
    r = .unavailable ∨ r = parseStockStatus html := by
  simp only [parseVariantStock] at h
  repeat' split at h
  all_goals first
    | exact Except.noConfusion h
    | (injection h with h; exact Or.inl h.symm)
    | (injection h with h; exact Or.inr h.symm)

/-- C5 witness: a page whose `L` size selector carries a `disabled`
indicator far from the add-to-cart button: the whole product classifies
`in_stock`, while `Size: L` narrows to `unavailable`. -/
theorem variant_narrowing_only_witness :
    parseVariantStock c5Html "Size: L" = .ok .unavailable ∧
      parseStockStatus c5Html = .in_stock ∧
      (StockStatus.unavailable = .unavailable ∨
        StockStatus.unavailable = parseStockStatus c5Html) :=
  ⟨by rfl, by rfl, variant_narrowing_only c5Html "Size: L" .unavailable (by rfl)⟩

/-- C8 counterexample: in `c8Html` the only affordance phrase is
`buy now` at index 1610 and no disabled marker stands within 1500
characters of it, yet the disabled flag is set (the scanned window is
anchored to the absent `add to cart`, hence degenerates to the document's
first 1499 characters, which hold the unrelated marker) and the result is
`unavailable`. -/
theorem disabled_window_not_anchored_cex :
    jsIndexOf false (lowerStr c8Html.data) "buy now".data = 1610 ∧
      jsIndexOf false (lowerStr c8Html.data) "add to cart".data = -1 ∧
      disabledTest (jsSubstring (lowerStr c8Html.data) (1610 - 1500) (1610 + 1500)) = false ∧
      hasAddToCartFn (lowerStr c8Html.data) = true ∧
      hasDisabledButtonFn (lowerStr c8Html.data) = true ∧
      parseStockStatus c8Html = .unavailable :=
  ⟨by rfl, by rfl, by rfl, by rfl, by rfl, by rfl⟩

/-- C8 (amended): the ±1500-character disabled-detection window is
anchored to the first occurrence of `add to cart` specifically (when
`add to cart` is absent, the scanned window is the document's first 1499
characters, not a window around the affordance found).  When `add to cart`
does occur, a disabled marker entirely outside the window around it does
not set the disabled flag and — absent structured-data and
unavailability-phrase signals — does not cause `unavailable`. -/
theorem disabled_window_anchored_to_add_to_cart (html : String) (i : Int)
    (hi : jsIndexOf false (lowerStr html.data) "add to cart".data = i)
    (hpos : 0 ≤ i)
    (hwin : disabledTest (jsSubstring (lowerStr html.data) (max 0 (i - 1500))
        (min ((lowerStr html.data).length : Int) (i + 1500))) = false) :
    hasDisabledButtonFn (lowerStr html.data) = false ∧
      (checkStructuredData html.data = none → outOfStockTest html.data = false →
        parseStockStatus html ≠ .unavailable) := by
  have hcart : containsSub false (lowerStr html.data) "add to cart".data = true := by
    unfold containsSub
    rw [hi]
    exact decide_eq_true hpos
  have hadd : hasAddToCartFn (lowerStr html.data) = true := by
    unfold hasAddToCartFn
    rw [hcart]
    rfl
  have hdis : hasDisabledButtonFn (lowerStr html.data) = false := by
    simp only [hasDisabledButtonFn, buttonSection, hadd, hi, if_true]
    exact hwin
  refine ⟨hdis, fun h1 h2 => ?_⟩
  simp only [parseStockStatus]
  rw [h1, h2, hadd, hdis]
  cases lowStockTest html.data <;> simp

/-- C8 witness: a page that is exactly the affordance, with an empty
remainder of the window, classifies without the disabled flag and not
`unavailable`. -/
theorem disabled_window_anchored_to_add_to_cart_witness :
    jsIndexOf false (lowerStr "add to cart".data) "add to cart".data = 0 ∧
      (hasDisabledButtonFn (lowerStr "add to cart".data) = false ∧
        (checkStructuredData "add to cart".data = none →
          outOfStockTest "add to cart".data = false →
          parseStockStatus "add to cart" ≠ .unavailable)) :=
  ⟨by rfl,
    disabled_window_anchored_to_add_to_cart "add to cart" 0 (by rfl) (by decide) (by rfl)⟩

/-- C10: when no truthy `Size` sub-value can be extracted from the variant
descriptor (in particular for a descriptor carrying only a `Color`),
variant-scoped classification is the whole-product classification of the
same page — the extracted color value is never consulted. -/
theorem variant_without_size_is_whole_product (html variantString : String)
    (h : sizeTruthy (variantSizeValue variantString) = false) :
    parseVariantStock html variantString = .ok (parseStockStatus html) := by
  simp [parseVariantStock, h]

/-- C10 witness: `"Color: Black"` extracts no size, and classification
with it equals whole-product classification. -/
theorem variant_without_size_is_whole_product_witness :
    sizeTruthy (variantSizeValue "Color: Black") = false ∧
      parseVariantStock "add to cart" "Color: Black" = .ok (parseStockStatus "add to cart") :=
  ⟨by rfl, variant_without_size_is_whole_product "add to cart" "Color: Black" (by rfl)⟩

/-- C6: a model response whose first content block is text with no
parseable JSON object, or whose JSON fails the shape validation, makes
`parseStockResponse` return the conservative `unavailable`/`low` default
and `parseVariantResponse` the empty/`low` default, each with the parse
error captured in `reasoning`; both parsers are total, so the failure
never propagates to the caller. -/
theorem ai_parse_failure_degrades (resp : MessageResp) (t : String)
    (ht : resp.content.head? = some (.text t)) :
    (stockRespMalformed t = true →
      (parseStockResponse resp).status = .unavailable ∧
        (parseStockResponse resp).confidence = .str "low" ∧
        ∃ m, (parseStockResponse resp).reasoning =
          .str ("Failed to parse AI response: " ++ m)) ∧
    (variantRespMalformed t = true →
      (parseVariantResponse resp).variants = [] ∧
        (parseVariantResponse resp).confidence = .str "low" ∧
        ∃ m, (parseVariantResponse resp).reasoning =
          some (.str ("Failed to parse AI response: " ++ m))) := by
  constructor
  · intro hm
    rcases hb : braceSpan t.data with _ | span
    · simp only [parseStockResponse, parseStockResponseE, ht, hb, degradedStockResult]
      exact ⟨by trivial, by trivial, ⟨_, rfl⟩⟩
    · rcases hj : jsonParse span with _ | parsed
      · simp only [parseStockResponse, parseStockResponseE, ht, hb, hj, degradedStockResult]
        exact ⟨by trivial, by trivial, ⟨_, rfl⟩⟩
      · simp only [stockRespMalformed, hb, hj] at hm
        have hs : statusOf (propGet parsed "status") = none :=
          Option.isNone_iff_eq_none.mp hm
        simp only [parseStockResponse, parseStockResponseE, ht, hb, hj, hs,
          degradedStockResult]
        exact ⟨by trivial, by trivial, ⟨_, rfl⟩⟩
  · intro hm
    rcases hb : braceSpan t.data with _ | span
    · simp only [parseVariantResponse, parseVariantResponseE, ht, hb, degradedVariantResult]
      exact ⟨by trivial, by trivial, ⟨_, rfl⟩⟩
    · rcases hj : jsonParse span with _ | parsed
      · simp only [parseVariantResponse, parseVariantResponseE, ht, hb, hj,
          degradedVariantResult]
        exact ⟨by trivial, by trivial, ⟨_, rfl⟩⟩
      · rcases hv : propGet parsed "variants" with _ | j
        · simp only [parseVariantResponse, parseVariantResponseE, ht, hb, hj, hv,
            degradedVariantResult]
          exact ⟨by trivial, by trivial, ⟨_, rfl⟩⟩
        · cases j
          case arr l =>
            simp only [variantRespMalformed, hb, hj, hv, isJsonArr, Bool.not_true] at hm
            exact Bool.noConfusion hm
          all_goals
            simp only [parseVariantResponse, parseVariantResponseE, ht, hb, hj, hv,
              degradedVariantResult]
            exact ⟨by trivial, by trivial, ⟨_, rfl⟩⟩

/-- C6 witness: a prose-only model answer degrades both parsers to their
conservative defaults. -/
theorem ai_parse_failure_degrades_witness :
    (parseStockResponse c6Resp).status = .unavailable ∧
      (parseVariantResponse c6Resp).variants = [] ∧
      (parseStockResponse c6Resp).confidence = .str "low" ∧
      (parseVariantResponse c6Resp).confidence = .str "low" := by
  have h := ai_parse_failure_degrades c6Resp "I am not sure" rfl
  exact ⟨(h.1 (by rfl)).1, (h.2 (by rfl)).1, (h.1 (by rfl)).2.1, (h.2 (by rfl)).2.1⟩

/-- C9 counterexample: a model answer whose `confidence` field is
`"certain"` is returned with that very confidence — a value outside
`high`/`medium`/`low` — so the parser does not validate the field against
the three allowed strings. -/
theorem confidence_not_validated_cex :
    (parseStockResponse c9Resp).confidence = .str "certain" ∧
      ¬("certain" = "high" ∨ "certain" = "medium" ∨ "certain" = "low") :=
  ⟨by rfl, by decide⟩

/-- C9 (amended): the parsers default the confidence to `"medium"` when
the model omits the field (or supplies a falsy one) and otherwise pass the
model-supplied value through without validating it against the three
allowed strings. -/
theorem confidence_passthrough_or_medium (resp : MessageResp) (t : String)
    (span : List Char) (parsed : Json)
    (ht : resp.content.head? = some (.text t))
    (hb : braceSpan t.data = some span)
    (hj : jsonParse span = some parsed) :
    (propGet parsed "confidence" = none →
      (∀ st, statusOf (propGet parsed "status") = some st →
        (parseStockResponse resp).confidence = .str "medium") ∧
      (∀ l, propGet parsed "variants" = some (.arr l) →
        (parseVariantResponse resp).confidence = .str "medium")) ∧
    (∀ c, propGet parsed "confidence" = some c → jsTruthy (some c) = true →
      (∀ st, statusOf (propGet parsed "status") = some st →
        (parseStockResponse resp).confidence = c) ∧
      (∀ l, propGet parsed "variants" = some (.arr l) →
        (parseVariantResponse resp).confidence = c)) := by
  constructor
  · intro hc
    constructor
    · intro st hst
      simp only [parseStockResponse, parseStockResponseE, ht, hb, hj, hst, hc, jsOr]
    · intro l hv
      simp only [parseVariantResponse, parseVariantResponseE, ht, hb, hj, hv, hc, jsOr]
  · intro c hc htr
    constructor
    · intro st hst
      simp only [parseStockResponse, parseStockResponseE, ht, hb, hj, hst, hc, jsOr, htr,
        if_true]
    · intro l hv
      simp only [parseVariantResponse, parseVariantResponseE, ht, hb, hj, hv, hc, jsOr, htr,
        if_true]

/-- C9 witness: a model answer with no `confidence` field defaults to
`"medium"` in both parsers. -/
theorem confidence_passthrough_or_medium_witness :
    (parseStockResponse c9DefaultResp).confidence = .str "medium" ∧
      (parseVariantResponse c9DefaultResp).confidence = .str "medium" := by
  have h := confidence_passthrough_or_medium c9DefaultResp
    "\x7b\"status\":\"in_stock\",\"variants\":[]\x7d"
    "\x7b\"status\":\"in_stock\",\"variants\":[]\x7d".data
    (Json.obj [("status", .str "in_stock"), ("variants", .arr [])])
    rfl (by rfl) (by rfl)
  exact ⟨(h.1 (by rfl)).1 .in_stock (by rfl), (h.1 (by rfl)).2 [] (by rfl)⟩

/-- `Map.get` on a cons cell. -/
theorem mapGet_cons {α : Type} (p : String × CacheEntry α) (rest : Cache α) (k : String) :
    mapGet (p :: rest) k = if p.1 = k then some p.2 else mapGet rest k := by
  rcases p with ⟨k', v⟩
  rfl

/-- Replacing the binding of `k` makes `k` look up the new entry. -/
theorem mapGet_replace {α : Type} (m : Cache α) (k : String) (v : CacheEntry α)
    (hm : mapHas m k = true) :
    mapGet (m.map (fun p => if p.1 = k then (k, v) else p)) k = some v := by
  induction m with
  | nil => simp [mapHas, mapGet] at hm
  | cons p rest ih =>
    rcases p with ⟨k', v'⟩
    simp only [List.map_cons]
    by_cases h : k' = k
    · subst h
      rw [show ((if ((k', v') : String × CacheEntry α).1 = k' then (k', v) else (k', v')) = (k', v)) from if_pos rfl]
      rw [mapGet_cons, if_pos rfl]
    · rw [show ((if ((k', v') : String × CacheEntry α).1 = k then (k, v) else (k', v')) = (k', v')) from if_neg h]
      rw [mapGet_cons, if_neg h]
      have hm' : mapHas rest k = true := by
        simpa [mapHas, mapGet_cons, h] using hm
      exact ih hm'
theorem mapGet_replace_other {α : Type} (m : Cache α) (k k' : String) (v : CacheEntry α)
    (h : k' ≠ k) :
    mapGet (m.map (fun p => if p.1 = k then (k, v) else p)) k' = mapGet m k' := by
  induction m with
  | nil => rfl
  | cons p rest ih =>
    rcases p with ⟨k'', v''⟩
    simp only [List.map_cons]
    by_cases h2 : k'' = k
    · subst h2
      rw [show ((if ((k'', v'') : String × CacheEntry α).1 = k'' then (k'', v) else (k'', v'')) = (k'', v)) from if_pos rfl]
      rw [mapGet_cons, mapGet_cons, if_neg (fun hh => h hh.symm), if_neg (fun hh => h hh.symm)]
      exact ih
    · rw [show ((if ((k'', v'') : String × CacheEntry α).1 = k then (k, v) else (k'', v'')) = (k'', v'')) from if_neg h2]
      rw [mapGet_cons, mapGet_cons]
      by_cases h3 : k'' = k'
      · rw [if_pos h3, if_pos h3]
      · rw [if_neg h3, if_neg h3]
        exact ih
theorem mapGet_append_single {α : Type} (m : Cache α) (k : String) (v : CacheEntry α)
    (hm : mapHas m k = false) :
    mapGet (m ++ [(k, v)]) k = some v := by
  induction m with
  | nil => simp [mapGet]
  | cons p rest ih =>
    rcases p with ⟨k', v'⟩
    rw [List.cons_append, mapGet_cons]
    by_cases h : k' = k
    · rw [mapHas, mapGet_cons, if_pos h] at hm
      simp at hm
    · rw [if_neg h]
      have hm' : mapHas rest k = false := by
        rw [mapHas, mapGet_cons, if_neg h] at hm
        exact hm
      exact ih hm'
theorem mapGet_append_other {α : Type} (m : Cache α) (k k' : String) (v : CacheEntry α)
    (h : k' ≠ k) :
    mapGet (m ++ [(k, v)]) k' = mapGet m k' := by
  induction m with
  | nil =>
    rw [List.nil_append, mapGet_cons, if_neg (fun hh : k = k' => h hh.symm)]
  | cons p rest ih =>
    rcases p with ⟨k'', v''⟩
    rw [List.cons_append, mapGet_cons, mapGet_cons]
    by_cases h3 : k'' = k'
    · rw [if_pos h3, if_pos h3]
    · rw [if_neg h3, if_neg h3]
      exact ih
theorem mapGet_mapSet_self {α : Type} (m : Cache α) (k : String) (v : CacheEntry α) :
    mapGet (mapSet m k v) k = some v := by
  unfold mapSet
  by_cases h : mapHas m k = true
  · rw [if_pos h]
    exact mapGet_replace m k v h
  · rw [if_neg h]
    exact mapGet_append_single m k v (by simpa using h)

/-- `Map.set` leaves every other key's lookup as it was. -/
theorem mapGet_mapSet_other {α : Type} (m : Cache α) (k k' : String) (v : CacheEntry α)
    (h : k' ≠ k) :
    mapGet (mapSet m k v) k' = mapGet m k' := by
  unfold mapSet
  by_cases hm : mapHas m k = true
  · rw [if_pos hm]
    exact mapGet_replace_other m k k' v h
  · rw [if_neg hm]
    exact mapGet_append_other m k k' v h

/-- A filter keeps a key's lookup when the looked-up entry satisfies the
predicate. -/
theorem mapGet_filter_of_pred {α : Type} (m : Cache α) (k : String) (e : CacheEntry α)
    (pred : String × CacheEntry α → Bool)
    (hg : mapGet m k = some e) (hp : pred (k, e) = true) :
    mapGet (m.filter pred) k = some e := by
  induction m with
  | nil => simp [mapGet] at hg
  | cons p rest ih =>
    rcases p with ⟨k'', v''⟩
    rw [mapGet_cons] at hg
    by_cases h : k'' = k
    · rw [if_pos h] at hg
      injection hg with hg
      subst hg
      subst h
      rw [List.filter_cons, if_pos (by exact hp), mapGet_cons, if_pos rfl]
    · rw [if_neg h] at hg
      rw [List.filter_cons]
      by_cases hq : pred (k'', v'') = true
      · rw [if_pos (by exact hq), mapGet_cons, if_neg h]
        exact ih hg
      · rw [if_neg (by simp [hq])]
        exact ih hg
theorem mapGet_delete_other {α : Type} (m : Cache α) (k k' : String) (h : k' ≠ k) :
    mapGet (mapDelete m k) k' = mapGet m k' := by
  induction m with
  | nil => rfl
  | cons p rest ih =>
    rcases p with ⟨k'', v''⟩
    unfold mapDelete at ih ⊢
    rw [List.filter_cons]
    by_cases h2 : k'' = k
    · rw [if_neg (by simp [h2])]
      rw [mapGet_cons, if_neg (fun hh : k'' = k' => h (hh ▸ h2 ▸ rfl))]
      exact ih
    · rw [if_pos (by simp [h2]), mapGet_cons, mapGet_cons]
      by_cases h3 : k'' = k'
      · rw [if_pos h3, if_pos h3]
      · rw [if_neg h3, if_neg h3]
        exact ih
theorem responseCache_ttl_invariants {α : Type} (c : Cache α) (now : Int) (k : String) :
    (∀ v c', getFromCache c now k = (some v, c') →
      c' = c ∧ ∃ e, mapGet c k = some e ∧ e.result = v ∧ now - e.timestamp ≤ CACHE_TTL) ∧
    (∀ e, mapGet c k = some e → now - e.timestamp > CACHE_TTL →
      getFromCache c now k = (none, mapDelete c k)) ∧
    (∀ k', k' ≠ k → mapGet (getFromCache c now k).2 k' = mapGet c k') ∧
    (∀ v, mapGet (setCache c now k v) k = some ⟨v, now⟩) ∧
    (∀ v k' e, k' ≠ k → mapGet c k' = some e → now - e.timestamp ≤ CACHE_TTL →
      mapGet (setCache c now k v) k' = some e) ∧
    (∀ v, (mapSet c k ⟨v, now⟩).length > 100 →
      ∀ p, p ∈ setCache c now k v ↔
        (p ∈ mapSet c k ⟨v, now⟩ ∧ now - p.2.timestamp ≤ CACHE_TTL)) := by
  refine ⟨?_, ?_, ?_, ?_, ?_, ?_⟩
  · intro v c' h
    rcases hg : mapGet c k with _ | e
    · simp [getFromCache, hg] at h
    · by_cases hexp : now - e.timestamp > CACHE_TTL
      · simp [getFromCache, hg, hexp] at h
      · simp [getFromCache, hg, hexp] at h
        exact ⟨h.2.symm, ⟨e, rfl, h.1, le_of_not_lt hexp⟩⟩
  · intro e hg hexp
    simp [getFromCache, hg, hexp]
  · intro k' hk
    rcases hg : mapGet c k with _ | e
    · simp [getFromCache, hg]
    · by_cases hexp : now - e.timestamp > CACHE_TTL
      · simp [getFromCache, hg, hexp, mapGet_delete_other c k k' hk]
      · simp [getFromCache, hg, hexp]
  · intro v
    unfold setCache
    by_cases hlen : (mapSet c k ⟨v, now⟩).length > 100
    · rw [if_pos hlen]
      refine mapGet_filter_of_pred _ k ⟨v, now⟩ _ (mapGet_mapSet_self c k ⟨v, now⟩) ?_
      simp [CACHE_TTL]
    · rw [if_neg hlen]
      exact mapGet_mapSet_self c k ⟨v, now⟩
  · intro v k' e hk hg hfresh
    unfold setCache
    by_cases hlen : (mapSet c k ⟨v, now⟩).length > 100
    · rw [if_pos hlen]
      refine mapGet_filter_of_pred _ k' e _ ?_ ?_
      · rw [mapGet_mapSet_other c k k' ⟨v, now⟩ hk]
        exact hg
      · simp only [Bool.not_eq_true', decide_eq_false_iff_not]
        exact not_lt.mpr hfresh
    · rw [if_neg hlen]
      rw [mapGet_mapSet_other c k k' ⟨v, now⟩ hk]
      exact hg
  · intro v hlen p
    unfold setCache
    rw [if_pos hlen, List.mem_filter]
    constructor
    · rintro ⟨hmem, hpred⟩
      refine ⟨hmem, ?_⟩
      simpa [not_lt] using hpred
    · rintro ⟨hmem, hfresh⟩
      refine ⟨hmem, ?_⟩
      simpa [not_lt] using hfresh

/-- C7 witness: on a one-entry cache, a get within the TTL returns the
stored value and leaves the cache untouched. -/
theorem responseCache_ttl_invariants_witness :
    getFromCache ([("k", ⟨7, 0⟩)] : Cache Nat) 1 "k" = (some 7, [("k", ⟨7, 0⟩)]) ∧
      ([("k", (⟨7, 0⟩ : CacheEntry Nat))] = [("k", ⟨7, 0⟩)] ∧
        ∃ e, mapGet ([("k", ⟨7, 0⟩)] : Cache Nat) "k" = some e ∧ e.result = 7 ∧
          (1 : Int) - e.timestamp ≤ CACHE_TTL) :=
  ⟨by rfl,
    (responseCache_ttl_invariants ([("k", ⟨7, 0⟩)] : Cache Nat) 1 "k").1 7
      [("k", ⟨7, 0⟩)] (by rfl)⟩

end Restock
